import Mathlib

/-!
Verification development for the pptx2md rendering engine
(`pptx2md/outputter/base.py`, `pptx2md/outputter/marp.py`, `pptx2md/types.py`).

Python strings are embedded as `List Char` (`PyStr`); Python floats are
idealised as exact rationals `ℚ`; Python `round` is modelled as
round-half-to-even (`pyRound`).  `str.strip`/`lstrip`/`rstrip`/`isspace`
use CPython's Unicode whitespace predicate, reproduced in `pyIsSpace`.
-/

/-- Embedding of a Python `str` as a list of characters. -/
abbrev PyStr := List Char

/-- Build a `PyStr` from a Lean string literal. -/
def pstr (s : String) : PyStr := s.toList

/-- The backtick character (U+0060). -/
def backtickChar : Char := Char.ofNat 96

/-- CPython's `Py_UNICODE_ISSPACE` predicate, used by `str.strip`,
`str.lstrip`, `str.rstrip` and `str.isspace`: ASCII 0x09–0x0D, 0x1C–0x1F,
space, NEL 0x85, NBSP 0xA0, and the Unicode space characters. -/
def pyIsSpace (c : Char) : Bool :=
  let n := c.toNat
  (0x09 ≤ n && n ≤ 0x0D) || (0x1C ≤ n && n ≤ 0x1F) || n = 0x20 || n = 0x85 ||
  n = 0xA0 || n = 0x1680 || (0x2000 ≤ n && n ≤ 0x200A) || n = 0x2028 ||
  n = 0x2029 || n = 0x202F || n = 0x205F || n = 0x3000

/-- Python `str.lstrip()`. -/
def pyLStrip (t : PyStr) : PyStr := t.dropWhile pyIsSpace

/-- Python `str.rstrip()`. -/
def pyRStrip (t : PyStr) : PyStr := (t.reverse.dropWhile pyIsSpace).reverse

/-- Python `str.strip()` (leading strip then trailing strip; the order is
irrelevant, this matches the successive `lstrip`/`rstrip` used in the code). -/
def pyStrip (t : PyStr) : PyStr := pyRStrip (pyLStrip t)

/-- Python `str.isspace()`: non-empty and every character is whitespace. -/
def pyIsSpaceStr (t : PyStr) : Bool := !t.isEmpty && t.all pyIsSpace

/-- The leading-whitespace run of a string (spec-side helper). -/
def leadingWS (t : PyStr) : PyStr := t.takeWhile pyIsSpace

/-- The trailing-whitespace run of a string (spec-side helper). -/
def trailingWS (t : PyStr) : PyStr := (t.reverse.takeWhile pyIsSpace).reverse

/-- Python `str.startswith(p)`. -/
def pyStartsWith (p t : PyStr) : Bool := t.take p.length = p

/-- Python `str.endswith(p)`. -/
def pyEndsWith (p t : PyStr) : Bool := t.drop (t.length - p.length) = p

/-- Python `text.replace(c, r)` for a single-character pattern `c`. -/
def replaceChar (c : Char) (r : PyStr) (t : PyStr) : PyStr :=
  t.flatMap (fun x => if x = c then r else [x])

/-- Python 3 `round` to an integer: round half to even (banker's rounding),
on the exact-rational idealisation of floats. -/
def pyRound (q : ℚ) : Int :=
  let f := q.floor
  let frac := q - (f : ℚ)
  if frac < 1/2 then f
  else if (1:ℚ)/2 < frac then f + 1
  else if f % 2 = 0 then f else f + 1

section PreludeLemmas

theorem replaceChar_append (c : Char) (r : PyStr) (a b : PyStr) :
    replaceChar c r (a ++ b) = replaceChar c r a ++ replaceChar c r b := by
  simp [replaceChar]

theorem dropWhile_dropWhile (p : Char → Bool) (l : PyStr) :
    (l.dropWhile p).dropWhile p = l.dropWhile p := by
  induction l with
  | nil => rfl
  | cons c ls ih =>
    by_cases h : p c <;> simp [List.dropWhile_cons, h, ih]

theorem pyRStrip_idem (t : PyStr) : pyRStrip (pyRStrip t) = pyRStrip t := by
  simp [pyRStrip, dropWhile_dropWhile]

end PreludeLemmas

/-! ## Data model (`pptx2md/types.py`) -/

/-- Embedding of `TextStyle` (types.py): style flags of a text run.  Two styles are
mergeable iff all six fields compare equal. -/
structure TextStyle where
  is_accent : Bool := false
  is_strong : Bool := false
  color_rgb : Option (Int × Int × Int) := none
  hyperlink : Option PyStr := none
  is_code : Bool := false
  is_math : Bool := false
deriving DecidableEq

/-- Embedding of `TextRun` (types.py). -/
structure TextRun where
  text : PyStr
  style : TextStyle
  font_name : Option PyStr := none
deriving DecidableEq

/-- Embedding of `ImageElement` (types.py), restricted to the geometry fields the
rendering engine reads.  `position_hint` models the dynamic
`getattr(element, 'position_hint', None)` reads in
`base.py:582` and `marp.py:472`; `ImageElement` declares no such field, so
it defaults to `none`.  (`rotation` and the crop percentages are never read
by the renderer and are omitted.) -/
structure ImageData where
  path : PyStr := []
  alt_text : PyStr := []
  display_width_px : Option Int := none
  display_height_px : Option Int := none
  original_width_px : Option Int := none
  original_height_px : Option Int := none
  left_px : Option Int := none
  top_px : Option Int := none
  position_hint : Option PyStr := none
deriving DecidableEq

/-- The closed `SlideElement` variant set (types.py).  `Title` content is a
plain string; `ListItem`/`Paragraph` content is a run list; a table cell is
a run list. -/
inductive SlideElement where
  | title (content : PyStr) (level : Int)
  | listItem (content : List TextRun) (level : Int)
  | paragraph (content : List TextRun)
  | image (img : ImageData)
  | table (content : List (List (List TextRun)))
  | codeBlock (content : PyStr) (language : Option PyStr)
  | formula (content : PyStr)
deriving DecidableEq

/-- The fields of `ConversionConfig` (types.py) read by the rendering
engine, with their `types.py` default values. -/
structure Config where
  disable_color : Bool := false
  disable_escaping : Bool := false
  disable_notes : Bool := false
  enable_slides : Bool := false
  keep_similar_titles : Bool := false
  image_width : Option Int := none
  slide_width_px : Option Int := none
  slide_height_px : Option Int := none
  marp_columns_line_length_threshold : Int := 40
deriving DecidableEq

/-! ## Global constants (`base.py` lines 30–39) -/

def LINES_NORMAL_MAX : Nat := 8
def LINES_SMALL_MAX : Nat := 12
def LINES_SMALLER_MAX : Nat := 18
def DEFAULT_SLIDE_WIDTH_PX : Int := 1600
def DEFAULT_SLIDE_HEIGHT_PX : Int := 900
def MARP_TARGET_WIDTH_PX : Int := 1280
def MARP_TARGET_HEIGHT_PX : Int := 720

/-! ## `Formatter._format_text_with_delimiters` (base.py 55–92)

Wraps only the non-whitespace core of `text` in the delimiter pair,
re-attaching the original leading/trailing whitespace outside; all-whitespace
or empty text is returned unchanged.  The Python index loops compute exactly
the leading-whitespace split (`takeWhile`/`dropWhile`) and the
trailing-whitespace split (`pyRStrip`). -/

def formatTextWithDelimiters (text od cd : PyStr) : PyStr :=
  if text.isEmpty then text
  else if text.all pyIsSpace then text      -- the for-else: string is all whitespace
  else
    let lw := text.takeWhile pyIsSpace
    let rest := text.dropWhile pyIsSpace
    if rest.isEmpty then text               -- unreachable guard kept from the source
    else
      let core := pyRStrip rest
      let tw := rest.drop core.length
      if core.isEmpty then text             -- unreachable guard kept from the source
      else lw ++ od ++ core ++ cd ++ tw

/-- Modelled from the spec: `rgb_to_hex` lives in `pptx2md/utils.py`, which is
not present under src/.  The renderer only pipes its result into an HTML
`<span style="color:...!">` attribute; it is modelled as the usual
`#rrggbb` lowercase hex form of the 3-tuple.  No claim depends on its value. -/
def rgbToHex (rgb : Int × Int × Int) : PyStr :=
  let hexDigit : Nat → Char := fun n => if n < 10 then Char.ofNat (48 + n) else Char.ofNat (87 + n)
  let hex2 : Int → PyStr := fun v => [hexDigit ((v.toNat / 16) % 16), hexDigit (v.toNat % 16)]
  '#' :: (hex2 rgb.1 ++ hex2 rgb.2.1 ++ hex2 rgb.2.2)

/-! ## `Formatter.get_inline_code` (base.py 396–432) -/

/-- The scan for the longest backtick run (base.py 404–412): a left fold
carrying `(longest_so_far, current_run)`, then a final `max`. -/
def longestBacktickSeq (text : PyStr) : Nat :=
  let p := text.foldl
    (fun (acc : Nat × Nat) c =>
      if c = backtickChar then (acc.1, acc.2 + 1) else (max acc.1 acc.2, 0))
    (0, 0)
  max p.1 p.2

/-- Embedding of `Formatter.get_inline_code`: fence one backtick longer than the longest
backtick run; a single space of padding inside a length-1 fence when the text
starts or ends with a backtick or is all whitespace; empty text gives empty
output. -/
def getInlineCode (text : PyStr) : PyStr :=
  if text.isEmpty then []
  else
    let fenceLen := longestBacktickSeq text + 1
    let fence := List.replicate fenceLen backtickChar
    if fenceLen = 1 &&
        (pyStartsWith [backtickChar] text || pyEndsWith [backtickChar] text || pyIsSpaceStr text) then
      fence ++ ' ' :: (text ++ ' ' :: fence)
    else
      fence ++ text ++ fence

/-! ## `Formatter.get_inline_math` (base.py 440–485) -/

def getInlineMath (text : PyStr) : PyStr :=
  if text.isEmpty then []
  else
    let textLStripped := pyLStrip text
    if textLStripped.isEmpty then text      -- all-whitespace input returned unchanged
    else
      let overallLW := text.take (text.length - textLStripped.length)
      let coreRunText := pyRStrip textLStripped
      let overallTW := textLStripped.drop coreRunText.length
      let formulaCandidatePayload :=
        if pyStartsWith (pstr "$") coreRunText && pyEndsWith (pstr "$") coreRunText &&
            decide (2 ≤ coreRunText.length) &&
            !(pyStartsWith (pstr "$$") coreRunText && pyEndsWith (pstr "$$") coreRunText) then
          (coreRunText.drop 1).dropLast
        else coreRunText
      let actualMathSymbols := pyRStrip formulaCandidatePayload
      let internalTrailingText := formulaCandidatePayload.drop actualMathSymbols.length
      let cleanedMathSymbols := pyStrip actualMathSymbols
      let formattedMath :=
        if cleanedMathSymbols.isEmpty then pstr "$ $"
        else '$' :: (cleanedMathSymbols ++ ['$'])
      overallLW ++ formattedMath ++ internalTrailingText ++ overallTW

/-! ## Base decoration primitives (base.py 434–495) -/

def baseGetAccent (text : PyStr) : PyStr := formatTextWithDelimiters text (pstr "_") (pstr "_")

def baseGetStrong (text : PyStr) : PyStr := formatTextWithDelimiters text (pstr "__") (pstr "__")

def getColored (text : PyStr) (rgb : Int × Int × Int) : PyStr :=
  pstr "<span style=\"color:" ++ rgbToHex rgb ++ pstr "\">" ++ text ++ pstr "</span>"

def getHyperlink (text url : PyStr) : PyStr := '[' :: (text ++ pstr "](" ++ url ++ pstr ")")

/-- Base `get_escaped` is the identity (base.py 494–495). -/
def baseGetEscaped (text : PyStr) : PyStr := text

/-! ## Marp escaping (`marp.py` 29–30, 537–547)

`esc_re1 = ([\|\*`])` prefixes a backslash to every `|`, `*` or backtick;
`esc_re2 = (<[^>]+>)` prefixes a backslash to every HTML-tag-like span.
Both are single-pass, non-overlapping, leftmost-first `re.sub` scans. -/

/-- Embedding of `re.sub(r'([\|\*`])', backslash + match)`: every match is one character,
so this is a character-wise pass. -/
def marpEscapeSpecials : PyStr → PyStr
  | [] => []
  | c :: rest =>
    if c = '|' ∨ c = '*' ∨ c = backtickChar then '\\' :: c :: marpEscapeSpecials rest
    else c :: marpEscapeSpecials rest

/-- Split `rest` (the characters after a `<`) at the first `>`:
`some (inner, after)` with `inner` the (possibly empty) run of non-`>`
characters and `after` the characters after that `>`; `none` when no `>`
follows. -/
def splitAtGt : PyStr → Option (PyStr × PyStr)
  | [] => none
  | c :: rest =>
    if c = '>' then some ([], rest)
    else
      match splitAtGt rest with
      | some (inner, after) => some (c :: inner, after)
      | none => none

/-- The `re.sub(r'(<[^>]+>)', backslash + match)` scan.  `<[^>]+>` matches
from a `<` to the first following `>` with at least one character between;
on a match the scan resumes after the `>`, on a failed `<` it resumes at the
next character.  The fuel argument (instantiated with the text length, which
bounds the number of steps because every step consumes at least one
character) keeps the recursion structural. -/
def marpEscapeTagsFuel : Nat → PyStr → PyStr
  | 0, t => t
  | _ + 1, [] => []
  | fuel + 1, c :: rest =>
    if c = '<' then
      match splitAtGt rest with
      | some (inner, after) =>
        if inner.isEmpty then c :: marpEscapeTagsFuel fuel rest
        else '\\' :: '<' :: (inner ++ '>' :: marpEscapeTagsFuel fuel after)
      | none => c :: marpEscapeTagsFuel fuel rest
    else c :: marpEscapeTagsFuel fuel rest

def marpEscapeTags (t : PyStr) : PyStr := marpEscapeTagsFuel t.length t

/-- Embedding of `MarpFormatter.get_escaped` (marp.py 540–547): identity when escaping is
disabled; otherwise U+000B and U+000C become spaces, then the two regex
passes run. -/
def marpGetEscaped (cfg : Config) (text : PyStr) : PyStr :=
  if cfg.disable_escaping then text
  else
    let t := replaceChar '\x0C' [' '] (replaceChar '\x0B' [' '] text)
    marpEscapeTags (marpEscapeSpecials t)

/-- Embedding of `MarpFormatter.get_inline_code` (marp.py 517–522): escape the text with
`get_escaped`, then wrap it in a single pair of backticks — it does NOT use
the base fence-length algorithm. -/
def marpGetInlineCode (cfg : Config) (text : PyStr) : PyStr :=
  backtickChar :: (marpGetEscaped cfg text ++ [backtickChar])

def marpGetAccent (text : PyStr) : PyStr := formatTextWithDelimiters text (pstr "*") (pstr "*")

def marpGetStrong (text : PyStr) : PyStr := formatTextWithDelimiters text (pstr "**") (pstr "**")

/-! ## The style-run merger (`Formatter.get_formatted_runs`, base.py 278–367)

The merger is shared by every formatter; subclasses override only the
primitive emitters.  A `Dialect` packages the primitives actually consulted
by `_format_single_merged_run`, mirroring the OO dispatch. -/

structure Dialect where
  escape : PyStr → PyStr
  strong : PyStr → PyStr
  accent : PyStr → PyStr
  colored : PyStr → (Int × Int × Int) → PyStr
  hyperlink : PyStr → PyStr → PyStr
  inlineCode : PyStr → PyStr
  inlineMath : PyStr → PyStr

/-- The base `Formatter`'s own primitive implementations. -/
def baseDialect : Dialect where
  escape := baseGetEscaped
  strong := baseGetStrong
  accent := baseGetAccent
  colored := getColored
  hyperlink := getHyperlink
  inlineCode := getInlineCode
  inlineMath := getInlineMath

/-- Embedding of the `MarpFormatter` overrides (marp.py); `get_inline_math` is inherited. -/
def marpDialect (cfg : Config) : Dialect where
  escape := marpGetEscaped cfg
  strong := marpGetStrong
  accent := marpGetAccent
  colored := getColored
  hyperlink := getHyperlink
  inlineCode := marpGetInlineCode cfg
  inlineMath := getInlineMath

/-- Embedding of `Formatter._styles_are_compatible` (base.py 278–286): `False` on a
missing style, otherwise field-wise equality of all six style fields. -/
def stylesAreCompatible : Option TextStyle → Option TextStyle → Bool
  | none, _ => false
  | some _, none => false
  | some s1, some s2 =>
    s1.is_code = s2.is_code && s1.is_accent = s2.is_accent &&
    s1.is_strong = s2.is_strong && s1.is_math = s2.is_math &&
    s1.hyperlink = s2.hyperlink && s1.color_rgb = s2.color_rgb

/-- Embedding of `Formatter._format_single_merged_run` (base.py 288–322): code and math
bypass escaping and decoration; otherwise escape (unless disabled), then
strong, then accent, then color (present and not disabled), then hyperlink
(present and non-empty — Python truthiness). -/
def formatSingleMergedRun (d : Dialect) (cfg : Config) (text : PyStr) (style : TextStyle) : PyStr :=
  if text.isEmpty && !style.is_code && !style.is_math then []
  else if style.is_code then d.inlineCode text
  else if style.is_math then d.inlineMath text
  else
    let t1 := if !cfg.disable_escaping then d.escape text else text
    let t2 := if style.is_strong then d.strong t1 else t1
    let t3 := if style.is_accent then d.accent t2 else t2
    let t4 := match style.color_rgb with
      | some rgb => if !cfg.disable_color then d.colored t3 rgb else t3
      | none => t3
    match style.hyperlink with
    | some url => if url.isEmpty then t4 else d.hyperlink t4 url
    | none => t4

/-- Embedding of `_normalize_whitespace_in_run_text` (base.py 330–337): NBSP and narrow
NBSP become ordinary spaces and U+000B is removed.  Note that the merger
applies this to EVERY run before looking at its style. -/
def normalizeWhitespaceInRunText (text : PyStr) : PyStr :=
  replaceChar '\x0B' [] (replaceChar '\u202F' [' '] (replaceChar '\u00A0' [' '] text))

/-- The re-strip of U+000B applied to a closed segment of non-code, non-math
style just before formatting (base.py 354–356, 363–364). -/
def vtabCleanup (text : PyStr) (style : TextStyle) : PyStr :=
  if style.is_code || style.is_math then text else replaceChar '\x0B' [] text

/-- One step of the merger's left-to-right walk (base.py 343–360): the
accumulator is `(closed segments, current merged text, current style)`. -/
def mergeStep (d : Dialect) (cfg : Config) (acc : List PyStr × PyStr × TextStyle)
    (next : TextRun) : List PyStr × PyStr × TextStyle :=
  let normalizedNextText := normalizeWhitespaceInRunText next.text
  if stylesAreCompatible (some acc.2.2) (some next.style) then
    (acc.1, acc.2.1 ++ normalizedNextText, acc.2.2)
  else
    let segs :=
      if !acc.2.1.isEmpty || acc.2.2.is_code || acc.2.2.is_math then
        acc.1 ++ [formatSingleMergedRun d cfg (vtabCleanup acc.2.1 acc.2.2) acc.2.2]
      else acc.1
    (segs, normalizedNextText, next.style)

/-- Embedding of `Formatter.get_formatted_runs` (base.py 324–367). -/
def getFormattedRuns (d : Dialect) (cfg : Config) : List TextRun → PyStr
  | [] => []
  | first :: rest =>
    let fin := rest.foldl (mergeStep d cfg)
      ([], normalizeWhitespaceInRunText first.text, first.style)
    let segs :=
      if !fin.2.1.isEmpty || fin.2.2.is_code || fin.2.2.is_math then
        fin.1 ++ [formatSingleMergedRun d cfg (vtabCleanup fin.2.1 fin.2.2) fin.2.2]
      else fin.1
    pyStrip segs.flatten

/-! ## Metrics & density classifier (base.py 94–168) -/

/-- The six counters returned by `Formatter._get_slide_content_metrics`. -/
structure SlideMetrics where
  line_count : Nat := 0
  char_count : Nat := 0
  max_image_width : Int := 0
  max_image_height : Int := 0
  text_lines_for_avg : Nat := 0
  text_chars_for_avg : Nat := 0
deriving DecidableEq

/-- Per-element update of `_get_slide_content_metrics` (base.py 105–159):
Title/ListItem/Paragraph count one line each; a code block counts
`newline count + 1` lines (1 when empty); a non-empty table counts its rows;
images only track the max display dimensions; only ListItem/Paragraph feed
the average-line-length counters (with stripped text). -/
def metricsStep (m : SlideMetrics) (e : SlideElement) : SlideMetrics :=
  match e with
  | .title content _ =>
    { m with line_count := m.line_count + 1,
             char_count := m.char_count + (pyStrip content).length }
  | .listItem runs _ =>
    let itemText := (runs.map TextRun.text).flatten
    { m with line_count := m.line_count + 1,
             text_lines_for_avg := m.text_lines_for_avg + 1,
             char_count := m.char_count + itemText.length,
             text_chars_for_avg := m.text_chars_for_avg + (pyStrip itemText).length }
  | .paragraph runs =>
    let paraText := (runs.map TextRun.text).flatten
    { m with line_count := m.line_count + 1,
             text_lines_for_avg := m.text_lines_for_avg + 1,
             char_count := m.char_count + paraText.length,
             text_chars_for_avg := m.text_chars_for_avg + (pyStrip paraText).length }
  | .codeBlock content _ =>
    { m with line_count := m.line_count + (if content.isEmpty then 1 else content.count '\n' + 1),
             char_count := m.char_count + content.length }
  | .table rows =>
    if rows.isEmpty then m
    else
      { m with line_count := m.line_count + rows.length,
               char_count := m.char_count +
                 (rows.map (fun row =>
                   (row.map (fun cell => (cell.map (fun r => r.text.length)).sum)).sum)).sum }
  | .image img =>
    { m with max_image_width := match img.display_width_px with
               | some w => max m.max_image_width w
               | none => m.max_image_width,
             max_image_height := match img.display_height_px with
               | some h => max m.max_image_height h
               | none => m.max_image_height }
  | .formula _ => m

def slideContentMetrics (elements : List SlideElement) : SlideMetrics :=
  elements.foldl metricsStep {}

/-- Embedding of `Formatter._get_slide_density_class` (base.py 163–168). -/
def getSlideDensityClass (line_count : Nat) : Option PyStr :=
  if line_count > LINES_SMALLER_MAX then some (pstr "smallest")
  else if line_count > LINES_SMALL_MAX then some (pstr "smaller")
  else if line_count > LINES_NORMAL_MAX then some (pstr "small")
  else none

/-! ## Title similarity (rapidfuzz `fuzz.ratio`, external library)

`fuzz.ratio(a, b)` is the normalised InDel similarity on a 0–100 scale:
`100 * 2*LCS(a,b) / (len a + len b)` (100 when both strings are empty).
With `score_cutoff=92` the call returns the score when it is ≥ 92 and `0.0`
otherwise, so its Python truthiness is exactly `ratio ≥ 92`. -/

/-- Inner loop of the longest-common-subsequence length: `f` is the LCS
function for the tail of the first string. -/
def lcsGo (a : Char) (f : List Char → Nat) : List Char → Nat
  | [] => 0
  | b :: bs => if a = b then f bs + 1 else max (lcsGo a f bs) (f (b :: bs))

/-- Longest-common-subsequence length of two strings. -/
def lcsLen : List Char → List Char → Nat
  | [], _ => 0
  | a :: as, bs => lcsGo a (lcsLen as) bs

/-- Truthiness of `fuzz.ratio(s1, s2, score_cutoff=92)`:
`100 * 2*LCS/(len1+len2) ≥ 92`, as an exact rational comparison. -/
def fuzzRatioGe92 (s1 s2 : PyStr) : Bool :=
  decide (92 * (s1.length + s2.length) ≤ 200 * lcsLen s1 s2)

/-! ## Title continuity (base.py 200–216 and marp.py 239–255)

Both sites strip the incoming title text, compare it against the tracked
`last_title_info` (same level and `fuzz.ratio ≥ 92`), and then either emit a
continuation, suppress, or emit normally.  The functions below return the
pair `(text/level handed to put_title — none when nothing is emitted,
updated last_title_info)`. -/

/-- The Title case of `Formatter.output` (base.py 200–216); `content` is the
`TitleElement`'s string content. -/
def baseProcessTitle (cfg : Config) (last : Option (PyStr × Int)) (content : PyStr)
    (level : Int) : Option (PyStr × Int) × Option (PyStr × Int) :=
  let titleText := pyStrip content
  if titleText.isEmpty then (none, last)
  else
    let isSimilarToLast :=
      match last with
      | some (lastText, lastLevel) => decide (lastLevel = level) && fuzzRatioGe92 lastText titleText
      | none => false
    if isSimilarToLast then
      if cfg.keep_similar_titles then
        let effectiveTitle := titleText ++ pstr " (cont.)"
        (some (effectiveTitle, level), some (effectiveTitle, level))
      else (none, last)
    else (some (titleText, level), some (titleText, level))

/-- The Title case of `MarpFormatter._put_elements_on_slide`
(marp.py 239–255) with `is_continued_slide = False` (the only way it is
called from `MarpFormatter.output`): string content is first escaped, and a
similar kept title is emitted WITHOUT the `" (cont.)"` suffix
(`effective_title = f'{title_text}'`, marp.py 250). -/
def marpProcessTitle (cfg : Config) (last : Option (PyStr × Int)) (content : PyStr)
    (level : Int) : Option (PyStr × Int) × Option (PyStr × Int) :=
  let titleText := pyStrip (marpGetEscaped cfg content)
  if titleText.isEmpty then (none, last)
  else
    let isSimilarToLast :=
      match last with
      | some (lastText, lastLevel) => decide (lastLevel = level) && fuzzRatioGe92 lastText titleText
      | none => false
    if isSimilarToLast then
      if cfg.keep_similar_titles then
        (some (titleText, level), some (titleText, level))
      else (none, last)
    else (some (titleText, level), some (titleText, level))

/-! ## Image position hinting (base.py 523–586, marp.py 392–472) -/

/-- Classification of a horizontal center into strict thirds of the target
canvas, exactly as written at base.py 565–579 and marp.py 461–469: a center
equal to a boundary yields no hint. -/
def thirdsHint (center width : ℚ) : Option PyStr :=
  if width / 3 < center ∧ center < 2 * width / 3 then some (pstr "center")
  else if center < width / 3 then some (pstr "left")
  else if 2 * width / 3 < center then some (pstr "right")
  else none

/-- Embedding of `Formatter._get_scaled_image_width_for_hinting` (base.py 523–538). -/
def scaledImageWidthForHinting (cfg : Config) (el : ImageData) (origW targetW : ℚ) :
    Option Int :=
  let pptDisplayWidth :=
    match el.display_width_px with
    | some w => some w
    | none => cfg.image_width
  match pptDisplayWidth with
  | some w => if 0 < origW then some (pyRound ((w : ℚ) * (targetW / origW))) else none
  | none => none

/-- Embedding of `Formatter._get_image_effective_position_hint` (base.py 540–586): the
computed thirds hint, with a valid explicit `position_hint` taking priority
over the computed one. -/
def getImageEffectivePositionHint (cfg : Config) (el : ImageData) (origW targetW : ℚ) :
    Option PyStr :=
  let scaledDisplayWidth := scaledImageWidthForHinting cfg el origW targetW
  let calculatedHint : Option PyStr :=
    match el.left_px, scaledDisplayWidth with
    | some l, some sw =>
      if 0 < origW ∧ 0 < sw then
        let scaledLeftPx : Int :=
          if 0 < origW then pyRound ((l : ℚ) * (targetW / origW)) else l
        thirdsHint ((scaledLeftPx : ℚ) + (sw : ℚ) / 2) targetW
      else none
    | _, _ => none
  match el.position_hint with
  | some h =>
    if h = pstr "left" ∨ h = pstr "right" ∨ h = pstr "center" then some h
    else calculatedHint
  | none => calculatedHint

/-- Python `cfg.slide_width_px or DEFAULT_SLIDE_WIDTH_PX` (`or` treats both
`None` and `0` as falsy). -/
def effectiveSlideWidth (cfg : Config) : Int :=
  match cfg.slide_width_px with
  | some w => if w = 0 then DEFAULT_SLIDE_WIDTH_PX else w
  | none => DEFAULT_SLIDE_WIDTH_PX

/-- Python `cfg.slide_height_px or DEFAULT_SLIDE_HEIGHT_PX`. -/
def effectiveSlideHeight (cfg : Config) : Int :=
  match cfg.slide_height_px with
  | some h => if h = 0 then DEFAULT_SLIDE_HEIGHT_PX else h
  | none => DEFAULT_SLIDE_HEIGHT_PX

/-- The `elif` height-based scaling branch of `MarpFormatter.put_image`
(marp.py 429–436): when width-based scaling was not possible, scale the
display height by `720 / original_slide_height` and recover the width from
the aspect ratio. -/
def marpHeightFallback (origH : Int) (el : ImageData) (ph : Option Int) :
    Option Int × Option Int :=
  match ph, el.original_width_px, el.original_height_px with
  | some h, some ow, some oh =>
    if 0 < origH ∧ ow ≠ 0 ∧ oh ≠ 0 ∧ 0 < oh then
      let fh : ℚ := (MARP_TARGET_HEIGHT_PX : ℚ) / (origH : ℚ)
      let sh := pyRound ((h : ℚ) * fh)
      let sw :=
        if 0 < ow ∧ 0 < oh then some (pyRound ((sh : ℚ) * ((ow : ℚ) / (oh : ℚ))))
        else none
      (sw, some sh)
    else (none, none)
  | _, _, _ => (none, none)

/-- The position hint computed inside `MarpFormatter.put_image`
(marp.py 398–469): the display size is resolved (config fallback plus
aspect-ratio handling), scaled to the 1280px Marp canvas, and the scaled
center is classified into thirds.  Python truthiness (`x and y and x > 0`)
on the optional original dimensions is spelled out. -/
def marpComputedPositionHint (cfg : Config) (el : ImageData) : Option PyStr :=
  let origW := effectiveSlideWidth cfg
  let origH := effectiveSlideHeight cfg
  -- config fallback for the display width (marp.py 408–412)
  let resolved : Option Int × Option Int :=
    match el.display_width_px, cfg.image_width with
    | none, some cw =>
      let ph :=
        match el.original_width_px, el.original_height_px with
        | some ow, some oh =>
          if ow ≠ 0 ∧ oh ≠ 0 ∧ 0 < ow then
            some (pyRound ((cw : ℚ) * ((oh : ℚ) / (ow : ℚ))))
          else el.display_height_px
        | _, _ => el.display_height_px
      (some cw, ph)
    | pw, _ => (pw, el.display_height_px)
  let pptDisplayWidth := resolved.1
  let pptDisplayHeight := resolved.2
  -- scaling to the Marp canvas (marp.py 414–436)
  let scaled : Option Int × Option Int :=
    match pptDisplayWidth with
    | some w =>
      if 0 < origW then
        let f : ℚ := (MARP_TARGET_WIDTH_PX : ℚ) / (origW : ℚ)
        let sw := pyRound ((w : ℚ) * f)
        let sh :=
          match el.original_width_px, el.original_height_px with
          | some ow, some oh =>
            if ow ≠ 0 ∧ oh ≠ 0 ∧ 0 < ow ∧ 0 < sw then
              some (pyRound ((sw : ℚ) * ((oh : ℚ) / (ow : ℚ))))
            else
              match pptDisplayHeight with
              | some h => some (pyRound ((h : ℚ) * f))
              | none => none
          | _, _ =>
            match pptDisplayHeight with
            | some h => some (pyRound ((h : ℚ) * f))
            | none => none
        (some sw, sh)
      else
        marpHeightFallback origH el pptDisplayHeight
    | none => marpHeightFallback origH el pptDisplayHeight
  let currentDisplayWidth := scaled.1
  -- hint from scaled left and width (marp.py 447–469)
  let scaledLeftPx : Option Int :=
    match el.left_px with
    | some l =>
      if 0 < origW then some (pyRound ((l : ℚ) * ((MARP_TARGET_WIDTH_PX : ℚ) / (origW : ℚ))))
      else none
    | none => none
  match scaledLeftPx, currentDisplayWidth with
  | some sl, some w => thirdsHint ((sl : ℚ) + (w : ℚ) / 2) (MARP_TARGET_WIDTH_PX : ℚ)
  | _, _ => none

/-- The effective hint used by `MarpFormatter.put_image` (marp.py 472):
`position_hint or getattr(element, 'position_hint', None)` — the COMPUTED
hint takes priority; the element's own hint is only a fallback. -/
def marpPutImageEffectiveHint (cfg : Config) (el : ImageData) : Option PyStr :=
  match marpComputedPositionHint cfg el with
  | some h => some h
  | none => el.position_hint

/-! ## Element separation and the Marp column-split planner
(base.py 588–617, marp.py 282–368) -/

def isTitleElement : SlideElement → Bool
  | .title _ _ => true
  | _ => false

def isTableElement : SlideElement → Bool
  | .table _ => true
  | _ => false

/-- Does `_separate_slide_elements` float this element out (an image whose
effective position hint is "left" or "right", base.py 603–613)? -/
def isFloatedImage (cfg : Config) (origW targetW : ℚ) : SlideElement → Bool
  | .image img =>
    let hint := getImageEffectivePositionHint cfg img origW targetW
    hint = some (pstr "left") || hint = some (pstr "right")
  | _ => false

/-- Embedding of `Formatter._separate_slide_elements` (base.py 588–617): pop a leading
Title, then split the remaining pool into floated images and other content,
both in document order. -/
def separateSlideElements (cfg : Config) (initial : List SlideElement)
    (origW targetW : ℚ) :
    Option SlideElement × List SlideElement × List SlideElement :=
  let popped : Option SlideElement × List SlideElement :=
    match initial with
    | e :: rest => if isTitleElement e then (some e, rest) else (none, initial)
    | [] => (none, [])
  let pool := popped.2
  (popped.1,
   pool.filter (isFloatedImage cfg origW targetW),
   pool.filter (fun e => !isFloatedImage cfg origW targetW e))

/-- The per-slide layout decision taken by `MarpFormatter.output`
(marp.py 306–365) on the slide's initial element list. -/
structure MarpSlidePlan where
  mainTitle : Option SlideElement
  floated : List SlideElement
  others : List SlideElement
  slideClass : Option PyStr
  split : Bool
  effectiveClass : Option PyStr
  columns : Option (List SlideElement × List SlideElement)
deriving DecidableEq

/-- Embedding of `MarpFormatter.output`, lines 306–365: separate title/floated/others;
density class from ALL initial elements; qualify for splitting when the
class is smaller/smallest and the others' average line length is below
`marp_columns_line_length_threshold`; actually split when moreover at least
two other elements remain and none is a table; on a split the halves are
`ceil(n/2)` and the rest and the class is downgraded to "small". -/
def marpPlanSlide (cfg : Config) (initial : List SlideElement) : MarpSlidePlan :=
  let origW := effectiveSlideWidth cfg
  let sep := separateSlideElements cfg initial (origW : ℚ) (MARP_TARGET_WIDTH_PX : ℚ)
  let mainTitle := sep.1
  let floated := sep.2.1
  let others := sep.2.2
  let m := slideContentMetrics initial
  let currentSlideClass := getSlideDensityClass m.line_count
  let initialSplitQualification :=
    if currentSlideClass = some (pstr "smaller") ∨ currentSlideClass = some (pstr "smallest") then
      let mo := slideContentMetrics others
      if 0 < mo.text_lines_for_avg then
        decide ((mo.text_chars_for_avg : ℚ) / (mo.text_lines_for_avg : ℚ)
                  < (cfg.marp_columns_line_length_threshold : ℚ))
      else false
    else false
  let containsTableInOtherContent :=
    if initialSplitQualification then others.any isTableElement else false
  let actuallySplitColumns :=
    initialSplitQualification && decide (2 ≤ others.length) && !containsTableInOtherContent
  let effectiveSlideClass :=
    if actuallySplitColumns then
      if currentSlideClass = some (pstr "smaller") ∨ currentSlideClass = some (pstr "smallest") then
        some (pstr "small")
      else currentSlideClass
    else currentSlideClass
  let columns :=
    if actuallySplitColumns then
      let numInFirstCol := (others.length + 1) / 2
      some (others.take numInFirstCol, others.drop numInFirstCol)
    else none
  ⟨mainTitle, floated, others, currentSlideClass, actuallySplitColumns,
   effectiveSlideClass, columns⟩

/-! ## Slide separators (base.py 255–258, marp.py 301–304 and 376–379) -/

/-- Slide-granular output events: the rendering of one slide's elements
(abstracted) and the `---` slide-separator marker. -/
inductive OutEvent where
  | slideContent (idx : Nat)
  | separator
deriving DecidableEq

/-- The slide loop of `Formatter.output` (base.py 176–258) at slide
granularity: after each slide, a separator iff `enable_slides` is set and
the slide is not the last (base.py 255–258). -/
def baseOutputSlideStream (cfg : Config) (numSlides : Nat) : List OutEvent :=
  (List.range numSlides).flatMap (fun i =>
    OutEvent.slideContent i ::
      (if i < numSlides - 1 ∧ cfg.enable_slides then [OutEvent.separator] else []))

/-- The slide loop of `MarpFormatter.output` (marp.py 291–379) at slide
granularity, given which slides have an empty initial element list: an empty
slide emits only a separator when it is not the last (marp.py 301–304); a
non-empty slide emits its content and then a separator when it is not the
last (marp.py 376–379).  `enable_slides` is never consulted. -/
def marpOutputSlideStream (cfg : Config) (slideIsEmpty : List Bool) : List OutEvent :=
  let n := slideIsEmpty.length
  let _ := cfg
  slideIsEmpty.enum.flatMap (fun p =>
    if p.2 then (if p.1 + 1 < n then [OutEvent.separator] else [])
    else OutEvent.slideContent p.1 ::
      (if ¬ (p.1 = n - 1) then [OutEvent.separator] else []))

/-! ## Spec-side definitions

These follow the SPEC's wording (for comparison with the transcribed code)
and provide the concrete fixtures used by witnesses and counterexamples. -/

/-- The longest run of consecutive backticks, written as a plain recursion
(`cur` is the length of the backtick run entering the list). -/
def maxBacktickRunAux : PyStr → Nat → Nat
  | [], cur => cur
  | c :: rest, cur =>
    if c = backtickChar then maxBacktickRunAux rest (cur + 1)
    else max cur (maxBacktickRunAux rest 0)

/-- The inline-code padding required by the claim: a single interior space
exactly when the fence has length 1 and the text starts or ends with a
backtick or is entirely whitespace. -/
def c2PadSpec (text : PyStr) (k : Nat) : PyStr :=
  if k + 1 = 1 ∧ (pyStartsWith [backtickChar] text ∨ pyEndsWith [backtickChar] text ∨
      pyIsSpaceStr text = true) then [' '] else []

/-- Character-wise description of the merger's whitespace normalization:
NBSP and narrow NBSP become a space, U+000B is deleted, everything else is
kept. -/
def normWhitespaceChar (c : Char) : PyStr :=
  if c = '\u00A0' then [' ']
  else if c = '\u202F' then [' ']
  else if c = '\x0B' then []
  else [c]

/-- Spec wording for the math-payload wrap: an empty (all-whitespace)
payload renders as `$ $`, otherwise `$payload$`. -/
def mathWrapSpec (s : PyStr) : PyStr :=
  if s.isEmpty then pstr "$ $" else '$' :: (s ++ ['$'])

/-- Spec wording for the outer-dollar unwrap of the trimmed text: remove the
outer `$` pair when the text starts and ends with `$`, has length ≥ 2, and
is not wrapped in `$$`…`$$`. -/
def dollarUnwrapSpec (core : PyStr) : PyStr :=
  if pyStartsWith (pstr "$") core && pyEndsWith (pstr "$") core &&
      decide (2 ≤ core.length) &&
      !(pyStartsWith (pstr "$$") core && pyEndsWith (pstr "$$") core) then
    (core.drop 1).dropLast
  else core

/-! ### Concrete fixtures for witnesses and counterexamples -/

/-- A configuration with every `types.py` default. -/
def cfgDefault : Config := {}

/-- Default configuration with `keep_similar_titles = true`. -/
def cfgKeepTitles : Config := { keep_similar_titles := true }

/-- Default configuration with `enable_slides = false` (the default),
spelled out for the separator counterexample. -/
def cfgNoSlides : Config := { enable_slides := false }

def plainStyle : TextStyle := {}

def strongStyle : TextStyle := { is_strong := true }

def codeStyle : TextStyle := { is_code := true }

def mathStyle : TextStyle := { is_math := true }

/-- A short plain paragraph element (text `"ab"`). -/
def shortPara : SlideElement := .paragraph [⟨pstr "ab", plainStyle, none⟩]

/-- A code block whose content has 14 newlines, hence 15 semantic lines. -/
def tallCodeBlock : SlideElement :=
  .codeBlock (List.replicate 14 '\n' ++ pstr "x") none

/-- The C5 witness slide: title + tall code block + two short paragraphs;
its line count is 1 + 15 + 1 + 1 = 18, density class "smaller". -/
def c5WitnessSlide : List SlideElement :=
  [.title (pstr "T") 1, tallCodeBlock, shortPara, shortPara]

/-- The C6 counterexample image: computed hint "left" (center 120 of 1280)
but explicit `position_hint = "right"`. -/
def c6Image : ImageData :=
  { left_px := some 50, display_width_px := some 200,
    position_hint := some (pstr "right") }

/-- The C6 configuration: original slide width 1600px. -/
def c6Config : Config := { slide_width_px := some 1600 }

/-! # Helper lemmas -/

section BacktickRunLemmas

theorem maxBtAux_foldl (t : PyStr) (l c : Nat) :
    max (t.foldl (fun (acc : Nat × Nat) ch =>
        if ch = backtickChar then (acc.1, acc.2 + 1) else (max acc.1 acc.2, 0)) (l, c)).1
      (t.foldl (fun (acc : Nat × Nat) ch =>
        if ch = backtickChar then (acc.1, acc.2 + 1) else (max acc.1 acc.2, 0)) (l, c)).2
      = max l (maxBacktickRunAux t c) := by
  induction t generalizing l c with
  | nil => simp [maxBacktickRunAux]
  | cons ch rest ih =>
    by_cases h : ch = backtickChar
    · simp only [List.foldl_cons, h, if_pos rfl, maxBacktickRunAux, if_true]
      simpa [h] using ih l (c + 1)
    · simp only [List.foldl_cons, maxBacktickRunAux, h, if_neg h, if_false]
      rw [ih (max l c) 0]
      simp [Nat.max_assoc]

theorem longestBacktickSeq_eq (t : PyStr) :
    longestBacktickSeq t = maxBacktickRunAux t 0 := by
  have h := maxBtAux_foldl t 0 0
  simpa [longestBacktickSeq] using h

theorem maxBtAux_mono (t : PyStr) : ∀ {c c' : Nat}, c ≤ c' →
    maxBacktickRunAux t c ≤ maxBacktickRunAux t c' := by
  induction t with
  | nil => intro c c' h; simpa [maxBacktickRunAux] using h
  | cons ch rest ih =>
    intro c c' h
    by_cases hc : ch = backtickChar
    · simpa [maxBacktickRunAux, hc] using ih (Nat.succ_le_succ h)
    · simp only [maxBacktickRunAux, hc, if_neg hc]
      exact max_le_max h le_rfl

theorem le_maxBtAux (t : PyStr) (c : Nat) : c ≤ maxBacktickRunAux t c := by
  induction t generalizing c with
  | nil => simp [maxBacktickRunAux]
  | cons ch rest ih =>
    by_cases hc : ch = backtickChar
    · simp only [maxBacktickRunAux, hc, if_pos rfl]
      exact le_trans (Nat.le_succ c) (ih (c + 1))
    · simp [maxBacktickRunAux, hc]

theorem maxBtAux_replicate_append (j : Nat) (s : PyStr) (c : Nat) :
    c + j ≤ maxBacktickRunAux (List.replicate j backtickChar ++ s) c := by
  induction j generalizing c with
  | zero => simpa using le_maxBtAux s c
  | succ j ih =>
    simp only [List.replicate_succ, List.cons_append, maxBacktickRunAux, if_pos rfl,
      if_true, List.append_eq]
    have := ih (c + 1)
    omega

theorem maxBtAux_ge_of_occurrence (p : PyStr) : ∀ (t s : PyStr) (k : Nat),
    t = p ++ List.replicate k backtickChar ++ s → k ≤ maxBacktickRunAux t 0 := by
  induction p with
  | nil =>
    intro t s k h
    subst h
    simpa using maxBtAux_replicate_append k s 0
  | cons ch p' ih =>
    intro t s k h
    subst h
    by_cases hc : ch = backtickChar
    · simp only [List.cons_append, maxBacktickRunAux, hc, if_pos rfl]
      exact le_trans (ih _ s k rfl) (maxBtAux_mono _ (Nat.zero_le 1))
    · simp only [List.cons_append, maxBacktickRunAux, hc, if_neg hc]
      exact le_trans (ih _ s k rfl) (le_max_right _ _)

theorem maxBtAux_occurrence (t : PyStr) : ∀ (c : Nat),
    ∃ p s, List.replicate c backtickChar ++ t
      = p ++ List.replicate (maxBacktickRunAux t c) backtickChar ++ s := by
  induction t with
  | nil =>
    intro c
    exact ⟨[], [], by simp [maxBacktickRunAux]⟩
  | cons ch rest ih =>
    intro c
    by_cases hc : ch = backtickChar
    · obtain ⟨p, s, hps⟩ := ih (c + 1)
      refine ⟨p, s, ?_⟩
      rw [maxBacktickRunAux, if_pos hc, ← hps, List.replicate_succ', hc]
      simp
    · rcases Nat.le_total (maxBacktickRunAux rest 0) c with hle | hle
      · refine ⟨[], ch :: rest, ?_⟩
        rw [maxBacktickRunAux, if_neg hc, max_eq_left hle]
        simp
      · obtain ⟨p, s, hps⟩ := ih 0
        simp only [List.replicate_zero, List.nil_append] at hps
        refine ⟨List.replicate c backtickChar ++ [ch] ++ p, s, ?_⟩
        rw [maxBacktickRunAux, if_neg hc, max_eq_right hle]
        conv_lhs => rw [hps]
        simp

theorem backtickOcc_iff (t : PyStr) (k : Nat) :
    (∃ p s, t = p ++ List.replicate k backtickChar ++ s) ↔
      k ≤ maxBacktickRunAux t 0 := by
  constructor
  · rintro ⟨p, s, h⟩
    exact maxBtAux_ge_of_occurrence p t s k h
  · intro h
    obtain ⟨p, s, hps⟩ := maxBtAux_occurrence t 0
    simp only [List.replicate_zero, List.nil_append] at hps
    set M := maxBacktickRunAux t 0 with hMdef
    refine ⟨p, List.replicate (M - k) backtickChar ++ s, ?_⟩
    have hM : M = k + (M - k) := by omega
    rw [hps, hM, List.replicate_add]
    simp only [List.append_assoc, Nat.add_sub_cancel_left]

theorem longestBacktickSeq_spec (t : PyStr) (k : Nat)
    (hocc : ∃ p s, t = p ++ List.replicate k backtickChar ++ s)
    (hmax : ¬ ∃ p s, t = p ++ List.replicate (k + 1) backtickChar ++ s) :
    longestBacktickSeq t = k := by
  rw [longestBacktickSeq_eq]
  have h1 : k ≤ maxBacktickRunAux t 0 := (backtickOcc_iff t k).mp hocc
  have h2 : ¬ (k + 1 ≤ maxBacktickRunAux t 0) :=
    fun h => hmax ((backtickOcc_iff t (k + 1)).mpr h)
  omega

end BacktickRunLemmas

section StripLemmas

theorem take_sub_eq_takeWhile (p : Char → Bool) (t : PyStr) :
    t.take (t.length - (t.dropWhile p).length) = t.takeWhile p := by
  set a := t.takeWhile p with ha
  set b := t.dropWhile p with hb
  have h : a ++ b = t := List.takeWhile_append_dropWhile p t
  rw [← h, List.length_append, Nat.add_sub_cancel]
  exact List.take_left a b

theorem rstrip_append_trailingWS (t : PyStr) : pyRStrip t ++ trailingWS t = t := by
  have h := congrArg List.reverse (List.takeWhile_append_dropWhile pyIsSpace t.reverse)
  rw [List.reverse_append, List.reverse_reverse] at h
  exact h

theorem drop_rstrip_eq_trailingWS (t : PyStr) :
    t.drop (pyRStrip t).length = trailingWS t := by
  set a := pyRStrip t with ha
  set b := trailingWS t with hb
  have h : a ++ b = t := rstrip_append_trailingWS t
  rw [← h]
  exact List.drop_left a b

theorem rstrip_eq_nil_iff (t : PyStr) : pyRStrip t = [] ↔ ∀ x ∈ t, pyIsSpace x := by
  rw [pyRStrip, List.reverse_eq_nil_iff, List.dropWhile_eq_nil_iff]
  constructor
  · intro h x hx
    exact h x (List.mem_reverse.mpr hx)
  · intro h x hx
    exact h x (List.mem_reverse.mp hx)

theorem pyRStrip_cons (c : Char) (t : PyStr) :
    pyRStrip (c :: t) =
      if pyRStrip t = [] then (if pyIsSpace c then [] else [c]) else c :: pyRStrip t := by
  rw [pyRStrip, List.reverse_cons, List.dropWhile_append]
  by_cases h : pyRStrip t = []
  · have hh : (List.dropWhile pyIsSpace t.reverse).isEmpty = true := by
      rw [List.isEmpty_iff]
      simpa [pyRStrip, List.reverse_eq_nil_iff] using h
    rw [if_pos hh, if_pos h]
    by_cases hc : pyIsSpace c <;> simp [List.dropWhile, hc]
  · have hh : (List.dropWhile pyIsSpace t.reverse).isEmpty = false := by
      rw [List.isEmpty_eq_false_iff_exists_mem]
      rcases List.exists_mem_of_ne_nil _
        (by simpa [pyRStrip, List.reverse_eq_nil_iff] using h :
          List.dropWhile pyIsSpace t.reverse ≠ []) with ⟨x, hx⟩
      exact ⟨x, hx⟩
    rw [if_neg h, hh]
    simp [pyRStrip]

theorem lstrip_rstrip_comm (t : PyStr) :
    pyLStrip (pyRStrip t) = pyRStrip (pyLStrip t) := by
  induction t with
  | nil => rfl
  | cons c ts ih =>
    by_cases hc : pyIsSpace c
    · rw [pyRStrip_cons]
      by_cases h : pyRStrip ts = []
      · have hall : ∀ x ∈ ts, pyIsSpace x := (rstrip_eq_nil_iff ts).mp h
        have hl : pyLStrip ts = [] := by
          rw [pyLStrip, List.dropWhile_eq_nil_iff]
          exact hall
        have hl2 : pyLStrip (c :: ts) = [] := by
          simp only [pyLStrip, List.dropWhile_cons, hc, if_true]
          simpa [pyLStrip] using hl
        rw [if_pos h, if_pos hc, hl2]
        rfl
      · rw [if_neg h]
        have e1 : pyLStrip (c :: pyRStrip ts) = pyLStrip (pyRStrip ts) := by
          simp [pyLStrip, List.dropWhile_cons, hc]
        have e2 : pyLStrip (c :: ts) = pyLStrip ts := by
          simp [pyLStrip, List.dropWhile_cons, hc]
        rw [e1, e2, ih]
    · have hl : pyLStrip (c :: ts) = c :: ts := by
        simp [pyLStrip, List.dropWhile_cons, hc]
      rw [hl, pyRStrip_cons]
      by_cases h : pyRStrip ts = []
      · rw [if_pos h, if_neg hc]
        simp [pyLStrip, List.dropWhile_cons, hc]
      · rw [if_neg h]
        simp [pyLStrip, List.dropWhile_cons, hc]

theorem pyStrip_rstrip (t : PyStr) : pyStrip (pyRStrip t) = pyStrip t := by
  rw [pyStrip, pyStrip, lstrip_rstrip_comm t, pyRStrip_idem]

theorem trailingWS_lstrip (t : PyStr) (h : pyStrip t ≠ []) :
    trailingWS (pyLStrip t) = trailingWS t := by
  induction t with
  | nil => rfl
  | cons c ts ih =>
    by_cases hc : pyIsSpace c
    · have hl : pyLStrip (c :: ts) = pyLStrip ts := by
        simp [pyLStrip, List.dropWhile_cons, hc]
      have hstrip : pyStrip (c :: ts) = pyStrip ts := by
        rw [pyStrip, pyStrip, hl]
      rw [hl, ih (by rw [← hstrip]; exact h)]
      have hts : pyRStrip ts ≠ [] := by
        intro hnil
        apply h
        rw [pyStrip, hl, ← lstrip_rstrip_comm, hnil]
        rfl
      have hcons := pyRStrip_cons c ts
      rw [if_neg hts] at hcons
      have h2 := rstrip_append_trailingWS (c :: ts)
      rw [hcons] at h2
      have h3 := rstrip_append_trailingWS ts
      simp only [List.cons_append] at h2
      have h2b : pyRStrip ts ++ trailingWS (c :: ts) = ts := by
        simpa using h2
      have h4 : pyRStrip ts ++ trailingWS (c :: ts) = pyRStrip ts ++ trailingWS ts := by
        rw [h2b, h3]
      exact (List.append_cancel_left h4).symm
    · have hl : pyLStrip (c :: ts) = c :: ts := by
        simp [pyLStrip, List.dropWhile_cons, hc]
      rw [hl]

end StripLemmas

section MergerLemmas

theorem stylesAreCompatible_self (s : TextStyle) :
    stylesAreCompatible (some s) (some s) = true := by
  simp [stylesAreCompatible]

theorem normalize_append (a b : PyStr) :
    normalizeWhitespaceInRunText (a ++ b)
      = normalizeWhitespaceInRunText a ++ normalizeWhitespaceInRunText b := by
  simp [normalizeWhitespaceInRunText, replaceChar_append]

theorem normalize_flatten (l : List PyStr) :
    normalizeWhitespaceInRunText l.flatten
      = (l.map normalizeWhitespaceInRunText).flatten := by
  induction l with
  | nil => rfl
  | cons a l ih => simp [List.flatten_cons, normalize_append, ih]

theorem mergeStep_foldl_uniform (d : Dialect) (cfg : Config) (sty : TextStyle)
    (rest : List TextRun) (h : ∀ r ∈ rest, r.style = sty) :
    ∀ (segs : List PyStr) (cur : PyStr),
      rest.foldl (mergeStep d cfg) (segs, cur, sty)
        = (segs, cur ++ (rest.map (fun r => normalizeWhitespaceInRunText r.text)).flatten, sty) := by
  induction rest with
  | nil => intro segs cur; simp
  | cons r rs ih =>
    intro segs cur
    have hr : r.style = sty := h r (List.mem_cons_self r rs)
    have hcompat : stylesAreCompatible (some sty) (some r.style) = true := by
      rw [hr]; exact stylesAreCompatible_self sty
    rw [List.foldl_cons]
    rw [show mergeStep d cfg (segs, cur, sty) r
        = (segs, cur ++ normalizeWhitespaceInRunText r.text, sty) by
      simp [mergeStep, hcompat]]
    rw [ih (fun x hx => h x (List.mem_cons_of_mem r hx)) segs
      (cur ++ normalizeWhitespaceInRunText r.text)]
    simp

end MergerLemmas

/-- C1: helper — both sides of the round trip reduce to this expression. -/
theorem getFormattedRuns_uniform (d : Dialect) (cfg : Config) (r0 : TextRun)
    (rest : List TextRun) (h : ∀ r ∈ rest, r.style = r0.style) :
    getFormattedRuns d cfg (r0 :: rest)
      = getFormattedRuns d cfg
          [⟨((r0 :: rest).map TextRun.text).flatten, r0.style, none⟩] := by
  rw [getFormattedRuns, getFormattedRuns]
  rw [mergeStep_foldl_uniform d cfg r0.style rest h]
  simp only [List.foldl_nil, List.map_cons, List.flatten_cons]
  rw [normalize_append, normalize_flatten, List.map_map]
  rfl

theorem normalize_char_by_char (t : PyStr) :
    normalizeWhitespaceInRunText t = t.flatMap normWhitespaceChar := by
  induction t with
  | nil => rfl
  | cons c ts ih =>
    have step : normalizeWhitespaceInRunText (c :: ts)
        = normalizeWhitespaceInRunText [c] ++ normalizeWhitespaceInRunText ts := by
      simpa using normalize_append [c] ts
    rw [step, ih, List.flatMap_cons]
    congr 1
    by_cases h1 : c = '\u00A0'
    · subst h1; rfl
    · by_cases h2 : c = '\u202F'
      · subst h2; rfl
      · by_cases h3 : c = '\x0B'
        · subst h3; rfl
        · simp [normalizeWhitespaceInRunText, replaceChar, normWhitespaceChar, h1, h2, h3]

section SeparatorLemmas

theorem count_flatMap_eq {α β : Type} [DecidableEq β] (l : List α) (f : α → List β) (b : β) :
    ((l.flatMap f).count b) = (l.map (fun x => (f x).count b)).sum := by
  induction l with
  | nil => rfl
  | cons x xs ih => simp [List.flatMap_cons, List.count_append, ih]

theorem sum_indicator_range (m n : Nat) :
    ((List.range n).map (fun i => if i < m then 1 else 0)).sum = min m n := by
  induction n with
  | zero => simp
  | succ n ih =>
    rw [List.range_succ, List.map_append, List.sum_append, ih]
    by_cases h : n < m <;> simp [h] <;> omega

end SeparatorLemmas

/-- C1: Round trip of the style-run merger: for a non-empty run list whose
styles are all field-wise identical to the first run's style, merging the
individual runs gives the same string as formatting the concatenation of
the raw texts once, as a single run of that style.  Holds for every dialect,
in particular `baseDialect`. -/
theorem c1_round_trip (d : Dialect) (cfg : Config) (r0 : TextRun)
    (rest : List TextRun) (h : ∀ r ∈ rest, r.style = r0.style) :
    getFormattedRuns d cfg (r0 :: rest)
      = getFormattedRuns d cfg
          [⟨((r0 :: rest).map TextRun.text).flatten, r0.style, none⟩] :=
  getFormattedRuns_uniform d cfg r0 rest h

/-- C1 witness: two bold runs `"He"`, `"llo"` merge to the same string
(`__Hello__`) as the single bold run `"Hello"`. -/
theorem c1_round_trip_witness :
    getFormattedRuns baseDialect cfgDefault
        [⟨pstr "He", strongStyle, none⟩, ⟨pstr "llo", strongStyle, none⟩]
      = getFormattedRuns baseDialect cfgDefault
          [⟨(([⟨pstr "He", strongStyle, none⟩, ⟨pstr "llo", strongStyle, none⟩] :
                List TextRun).map TextRun.text).flatten, strongStyle, none⟩] ∧
    getFormattedRuns baseDialect cfgDefault
        [⟨pstr "He", strongStyle, none⟩, ⟨pstr "llo", strongStyle, none⟩]
      = pstr "__Hello__" :=
  ⟨c1_round_trip baseDialect cfgDefault _ _ (by decide), by decide⟩

/-- C4: Density classification boundaries with the global thresholds
8/12/18: for every element list, a computed line count of exactly 8 is
classified `none` and 9 `small`; 12 `small` and 13 `smaller`; 18 `smaller`
and 19 `smallest`. -/
theorem c4_density_boundaries (es : List SlideElement) :
    ((slideContentMetrics es).line_count = 8 →
      getSlideDensityClass (slideContentMetrics es).line_count = none) ∧
    ((slideContentMetrics es).line_count = 9 →
      getSlideDensityClass (slideContentMetrics es).line_count = some (pstr "small")) ∧
    ((slideContentMetrics es).line_count = 12 →
      getSlideDensityClass (slideContentMetrics es).line_count = some (pstr "small")) ∧
    ((slideContentMetrics es).line_count = 13 →
      getSlideDensityClass (slideContentMetrics es).line_count = some (pstr "smaller")) ∧
    ((slideContentMetrics es).line_count = 18 →
      getSlideDensityClass (slideContentMetrics es).line_count = some (pstr "smaller")) ∧
    ((slideContentMetrics es).line_count = 19 →
      getSlideDensityClass (slideContentMetrics es).line_count = some (pstr "smallest")) := by
  refine ⟨?_, ?_, ?_, ?_, ?_, ?_⟩ <;> intro h <;> rw [h] <;> decide

/-- C4 witness: slides made of 8/9/12/13/18/19 one-line paragraphs hit each
boundary. -/
theorem c4_density_boundaries_witness :
    getSlideDensityClass (slideContentMetrics (List.replicate 8 shortPara)).line_count = none ∧
    getSlideDensityClass (slideContentMetrics (List.replicate 9 shortPara)).line_count
      = some (pstr "small") ∧
    getSlideDensityClass (slideContentMetrics (List.replicate 12 shortPara)).line_count
      = some (pstr "small") ∧
    getSlideDensityClass (slideContentMetrics (List.replicate 13 shortPara)).line_count
      = some (pstr "smaller") ∧
    getSlideDensityClass (slideContentMetrics (List.replicate 18 shortPara)).line_count
      = some (pstr "smaller") ∧
    getSlideDensityClass (slideContentMetrics (List.replicate 19 shortPara)).line_count
      = some (pstr "smallest") :=
  ⟨(c4_density_boundaries _).1 (by decide),
   (c4_density_boundaries _).2.1 (by decide),
   (c4_density_boundaries _).2.2.1 (by decide),
   (c4_density_boundaries _).2.2.2.1 (by decide),
   (c4_density_boundaries _).2.2.2.2.1 (by decide),
   (c4_density_boundaries _).2.2.2.2.2 (by decide)⟩

/-- C10: When a similar title is suppressed (same level, `fuzz.ratio ≥ 92`,
`keep_similar_titles = false`), the base formatter emits nothing and
`last_title_info` is left unchanged, still holding the earlier emitted
title. -/
theorem c10_suppressed_title_state (cfg : Config) (lastText content : PyStr)
    (level : Int) (hkeep : cfg.keep_similar_titles = false)
    (hne : pyStrip content ≠ [])
    (hsim : fuzzRatioGe92 lastText (pyStrip content) = true) :
    baseProcessTitle cfg (some (lastText, level)) content level
      = (none, some (lastText, level)) := by
  have hne' : (pyStrip content).isEmpty = false := by
    cases hpc : pyStrip content with
    | nil => exact absurd hpc hne
    | cons a l => rfl
  simp [baseProcessTitle, hne', hsim, hkeep]

/-- C10 witness: after emitting `"Results"` at level 1, the suppressed
near-duplicate `"Results "` leaves the tracker at `("Results", 1)`. -/
theorem c10_suppressed_title_state_witness :
    baseProcessTitle cfgDefault (some (pstr "Results", 1)) (pstr "Results ") 1
      = (none, some (pstr "Results", 1)) :=
  c10_suppressed_title_state cfgDefault (pstr "Results") (pstr "Results ") 1
    rfl (by decide) (by decide)

/-- C7 counterexample: the merger strips U+000B from a CODE run
(`"\x0Ba"` renders as `` `a` ``, not `` `\x0Ba` ``), and it never strips
form feed from a plain run (`"a\x0Cb"` renders unchanged, not `"ab"`),
refuting both halves of the claim at concrete inputs. -/
theorem c7_counterexample :
    getFormattedRuns baseDialect cfgDefault [⟨pstr "\x0Ba", codeStyle, none⟩]
      = pstr "`a`" ∧
    getFormattedRuns baseDialect cfgDefault [⟨pstr "\x0Ba", codeStyle, none⟩]
      ≠ pstr "`\x0Ba`" ∧
    getFormattedRuns baseDialect cfgDefault [⟨pstr "a\x0Cb", plainStyle, none⟩]
      = pstr "a\x0Cb" ∧
    getFormattedRuns baseDialect cfgDefault [⟨pstr "a\x0Cb", plainStyle, none⟩]
      ≠ pstr "ab" :=
  ⟨by decide, by decide, by decide, by decide⟩

/-- C7 (amended): the merger's whitespace normalization maps, in EVERY run
regardless of style, NBSP and narrow NBSP to a space and deletes U+000B,
leaving all other characters (including form feed U+000C) untouched; in
particular a single code run and a single math run are formatted from their
normalized (U+000B-stripped) text. -/
theorem c7_whitespace_normalization_amended :
    (∀ t : PyStr, normalizeWhitespaceInRunText t = t.flatMap normWhitespaceChar) ∧
    (∀ (d : Dialect) (cfg : Config) (t : PyStr),
      getFormattedRuns d cfg [⟨t, codeStyle, none⟩]
        = pyStrip (d.inlineCode (normalizeWhitespaceInRunText t))) ∧
    (∀ (d : Dialect) (cfg : Config) (t : PyStr),
      getFormattedRuns d cfg [⟨t, mathStyle, none⟩]
        = pyStrip (d.inlineMath (normalizeWhitespaceInRunText t))) := by
  refine ⟨normalize_char_by_char, ?_, ?_⟩
  · intro d cfg t
    simp [getFormattedRuns, formatSingleMergedRun, vtabCleanup, codeStyle]
  · intro d cfg t
    simp [getFormattedRuns, formatSingleMergedRun, vtabCleanup, mathStyle]

/-- C3 counterexample: with `keep_similar_titles = true`, the Marp formatter
emits the similar title `"Results "` (after escaping and stripping) WITHOUT
the `" (cont.)"` suffix required by the claim. -/
theorem c3_counterexample :
    marpProcessTitle cfgKeepTitles (some (pstr "Results", 1)) (pstr "Results ") 1
      = (some (pstr "Results", 1), some (pstr "Results", 1)) ∧
    (pstr "Results" : PyStr) ≠ pstr "Results (cont.)" :=
  ⟨by decide, by decide⟩

/-- C3 (amended): for a similar consecutive title (same level,
`fuzz.ratio ≥ 92` against the tracked title): with `keep_similar_titles`
true the BASE formatter emits the stripped text with `" (cont.)"` appended
and advances the tracker to the suffixed text, while the MARP formatter
emits the (escaped, stripped) text WITHOUT the suffix and advances the
tracker to the unsuffixed text; with `keep_similar_titles` false both
formatters emit nothing. -/
theorem c3_title_continuity_amended :
    (∀ (cfg : Config) (lastText content : PyStr) (level : Int),
      cfg.keep_similar_titles = true →
      pyStrip content ≠ [] →
      fuzzRatioGe92 lastText (pyStrip content) = true →
      baseProcessTitle cfg (some (lastText, level)) content level
        = (some (pyStrip content ++ pstr " (cont.)", level),
           some (pyStrip content ++ pstr " (cont.)", level))) ∧
    (∀ (cfg : Config) (lastText content : PyStr) (level : Int),
      cfg.keep_similar_titles = false →
      pyStrip content ≠ [] →
      fuzzRatioGe92 lastText (pyStrip content) = true →
      baseProcessTitle cfg (some (lastText, level)) content level
        = (none, some (lastText, level))) ∧
    (∀ (cfg : Config) (lastText content : PyStr) (level : Int),
      cfg.keep_similar_titles = true →
      pyStrip (marpGetEscaped cfg content) ≠ [] →
      fuzzRatioGe92 lastText (pyStrip (marpGetEscaped cfg content)) = true →
      marpProcessTitle cfg (some (lastText, level)) content level
        = (some (pyStrip (marpGetEscaped cfg content), level),
           some (pyStrip (marpGetEscaped cfg content), level))) ∧
    (∀ (cfg : Config) (lastText content : PyStr) (level : Int),
      cfg.keep_similar_titles = false →
      pyStrip (marpGetEscaped cfg content) ≠ [] →
      fuzzRatioGe92 lastText (pyStrip (marpGetEscaped cfg content)) = true →
      marpProcessTitle cfg (some (lastText, level)) content level
        = (none, some (lastText, level))) := by
  refine ⟨?_, ?_, ?_, ?_⟩ <;> intro cfg lastText content level hkeep hne hsim <;>
    [skip; skip; skip; skip] <;> first
  | (have hne' : (pyStrip content).isEmpty = false := by
      cases hpc : pyStrip content with
      | nil => exact absurd hpc hne
      | cons a l => rfl
     simp [baseProcessTitle, hne', hsim, hkeep])
  | (have hne' : (pyStrip (marpGetEscaped cfg content)).isEmpty = false := by
      cases hpc : pyStrip (marpGetEscaped cfg content) with
      | nil => exact absurd hpc hne
      | cons a l => rfl
     simp [marpProcessTitle, hne', hsim, hkeep])

/-- C3 witness: `"Results"` tracked, then `"Results "` at the same level:
with `keep_similar_titles = true` the base formatter emits
`"Results (cont.)"` and the Marp formatter emits `"Results"`. -/
theorem c3_title_continuity_witness :
    baseProcessTitle cfgKeepTitles (some (pstr "Results", 1)) (pstr "Results ") 1
      = (some (pyStrip (pstr "Results ") ++ pstr " (cont.)", 1),
         some (pyStrip (pstr "Results ") ++ pstr " (cont.)", 1)) ∧
    baseProcessTitle cfgKeepTitles (some (pstr "Results", 1)) (pstr "Results ") 1
      = (some (pstr "Results (cont.)", 1), some (pstr "Results (cont.)", 1)) ∧
    marpProcessTitle cfgKeepTitles (some (pstr "Results", 1)) (pstr "Results ") 1
      = (some (pstr "Results", 1), some (pstr "Results", 1)) :=
  ⟨c3_title_continuity_amended.1 cfgKeepTitles (pstr "Results") (pstr "Results ") 1
      rfl (by decide) (by decide),
   by decide, by decide⟩

theorem marp_sep_count_aux (n : Nat) (flags : List Bool) : ∀ (k : Nat),
    k + flags.length = n →
    ((List.enumFrom k flags).flatMap (fun p =>
        if p.2 then (if p.1 + 1 < n then [OutEvent.separator] else [])
        else OutEvent.slideContent p.1 ::
          (if ¬ (p.1 = n - 1) then [OutEvent.separator] else []))).count
        OutEvent.separator
      = n - 1 - k := by
  induction flags with
  | nil =>
    intro k hk
    simp only [List.enumFrom, List.flatMap_nil, List.count_nil]
    simp only [List.length_nil, Nat.add_zero] at hk
    omega
  | cons f fs ih =>
    intro k hk
    rw [List.enumFrom, List.flatMap_cons, List.count_append]
    rw [ih (k + 1) (by simp only [List.length_cons] at hk; omega)]
    have hkn : k + 1 ≤ n := by simp only [List.length_cons] at hk; omega
    cases f with
    | true =>
      by_cases h : k + 1 < n <;> (simp [h]; omega)
    | false =>
      by_cases h : k = n - 1
      · simp [h, List.count_cons]
      · simp [h, List.count_cons]
        omega

/-- C9 counterexample: with `enable_slides = false` and two non-empty
slides, the Marp output loop still emits one slide separator — Marp never
consults `enable_slides` (marp.py 376–379). -/
theorem c9_counterexample :
    cfgNoSlides.enable_slides = false ∧
    (marpOutputSlideStream cfgNoSlides [false, false]).count OutEvent.separator = 1 :=
  ⟨rfl, by decide⟩

/-- C9 (amended): the BASE output loop emits a separator after slide `i` iff
`enable_slides` is set and `i` is not the last slide (so
`numSlides - 1` separators when set, none otherwise); the MARP output loop
always emits exactly `numSlides - 1` separators, regardless of
`enable_slides`. -/
theorem c9_slide_separators_amended :
    (∀ (cfg : Config) (n : Nat),
      (baseOutputSlideStream cfg n).count OutEvent.separator
        = if cfg.enable_slides then n - 1 else 0) ∧
    (∀ (cfg : Config) (flags : List Bool),
      (marpOutputSlideStream cfg flags).count OutEvent.separator
        = flags.length - 1) := by
  constructor
  · intro cfg n
    rw [baseOutputSlideStream, count_flatMap_eq]
    by_cases he : cfg.enable_slides
    · have hmap : ((List.range n).map fun i =>
          (OutEvent.slideContent i ::
            (if i < n - 1 ∧ cfg.enable_slides then [OutEvent.separator] else [])).count
            OutEvent.separator)
          = (List.range n).map fun i => if i < n - 1 then 1 else 0 := by
        refine List.map_congr_left ?_
        intro i _
        by_cases h : i < n - 1 <;> simp [h, he, List.count_cons]
      rw [hmap, sum_indicator_range, he, if_pos rfl]
      exact min_eq_left (Nat.sub_le n 1)
    · have he' : cfg.enable_slides = false := by simpa using he
      have hmap : ((List.range n).map fun i =>
          (OutEvent.slideContent i ::
            (if i < n - 1 ∧ cfg.enable_slides then [OutEvent.separator] else [])).count
            OutEvent.separator)
          = (List.range n).map fun _ => 0 := by
        refine List.map_congr_left ?_
        intro i _
        simp [he', List.count_cons]
      rw [hmap, he', if_neg (by simp)]
      simp
  · intro cfg flags
    have h := marp_sep_count_aux flags.length flags 0 (by simp)
    simpa [marpOutputSlideStream, List.enum] using h

/-- C2 (amended): the BASE `get_inline_code` obeys the claim exactly: empty
text gives empty output, and for non-empty text whose longest backtick run
has length `k` (there are `k` consecutive backticks somewhere but nowhere
`k+1`), the output is a fence of exactly `k+1` backticks on each side, with
a single interior space on both sides exactly when the fence length is 1
and the text starts or ends with a backtick or is entirely whitespace.  The
MARP override instead always uses a single-backtick fence around the
escaped text. -/
theorem c2_inline_code_fence_amended :
    (getInlineCode [] = []) ∧
    (∀ (text : PyStr) (k : Nat),
      text ≠ [] →
      (∃ p s, text = p ++ List.replicate k backtickChar ++ s) →
      (¬ ∃ p s, text = p ++ List.replicate (k + 1) backtickChar ++ s) →
      getInlineCode text
        = List.replicate (k + 1) backtickChar ++ c2PadSpec text k ++ text
            ++ c2PadSpec text k ++ List.replicate (k + 1) backtickChar) ∧
    (∀ (cfg : Config) (text : PyStr),
      marpGetInlineCode cfg text
        = backtickChar :: (marpGetEscaped cfg text ++ [backtickChar])) := by
  refine ⟨rfl, ?_, fun cfg text => rfl⟩
  intro text k hne hocc hmax
  have hk := longestBacktickSeq_spec text k hocc hmax
  have hne' : text.isEmpty = false := by
    cases text with
    | nil => exact absurd rfl hne
    | cons a l => rfl
  rw [getInlineCode, hne']
  simp only [Bool.false_eq_true, if_false, hk]
  by_cases hc : (decide (k + 1 = 1) &&
      (pyStartsWith [backtickChar] text || pyEndsWith [backtickChar] text ||
        pyIsSpaceStr text)) = true
  · rw [if_pos hc]
    have hcp : k + 1 = 1 ∧ (pyStartsWith [backtickChar] text = true ∨
        pyEndsWith [backtickChar] text = true ∨ pyIsSpaceStr text = true) := by
      simp only [Bool.and_eq_true, decide_eq_true_eq, Bool.or_eq_true] at hc
      tauto
    rw [show c2PadSpec text k = [' '] from by rw [c2PadSpec, if_pos hcp]]
    simp
  · rw [if_neg hc]
    have hcp : ¬ (k + 1 = 1 ∧ (pyStartsWith [backtickChar] text = true ∨
        pyEndsWith [backtickChar] text = true ∨ pyIsSpaceStr text = true)) := by
      simp only [Bool.and_eq_true, decide_eq_true_eq, Bool.or_eq_true] at hc
      tauto
    rw [show c2PadSpec text k = [] from by rw [c2PadSpec, if_neg hcp]]
    simp

/-- C2 witness: `"a``b"` has longest backtick run 2, so the base formatter
fences it with three backticks and no padding. -/
theorem c2_inline_code_fence_witness :
    getInlineCode (pstr "a``b")
      = List.replicate 3 backtickChar ++ c2PadSpec (pstr "a``b") 2 ++ pstr "a``b"
          ++ c2PadSpec (pstr "a``b") 2 ++ List.replicate 3 backtickChar ∧
    getInlineCode (pstr "a``b") = pstr "```a``b```" :=
  ⟨c2_inline_code_fence_amended.2.1 (pstr "a``b") 2 (by decide)
      ⟨pstr "a", pstr "b", by decide⟩
      (fun hex => absurd ((backtickOcc_iff (pstr "a``b") 3).mp hex) (by decide)),
   by decide⟩

/-- C2 counterexample: on the text `` ` `` (one backtick, so `k = 1`), the
Marp formatter emits `` `\`` `` — a single-backtick fence around the escaped
text, not the `k+1 = 2`-backtick fence the claim requires. -/
theorem c2_counterexample :
    marpGetInlineCode cfgDefault (pstr "`") = pstr "`\\``" ∧
    (marpGetInlineCode cfgDefault (pstr "`")).take 2 ≠ List.replicate 2 backtickChar :=
  ⟨by decide, by decide⟩

theorem dropWhile_head_not (p : Char → Bool) (t : PyStr) (c : Char) (rest : PyStr)
    (h : t.dropWhile p = c :: rest) : p c = false := by
  induction t with
  | nil => simp at h
  | cons a ts ih =>
    by_cases ha : p a
    · rw [List.dropWhile_cons, if_pos ha] at h
      exact ih h
    · rw [List.dropWhile_cons, if_neg ha] at h
      cases h
      simpa using ha

theorem lstrip_eq_nil_of_strip_eq_nil (t : PyStr) (h : pyStrip t = []) :
    pyLStrip t = [] := by
  cases hl : pyLStrip t with
  | nil => rfl
  | cons c rest =>
    have hc : pyIsSpace c = false := dropWhile_head_not pyIsSpace t c rest hl
    rw [pyStrip, hl, pyRStrip_cons] at h
    by_cases h2 : pyRStrip rest = []
    · rw [if_pos h2, if_neg (by simp [hc])] at h
      simp at h
    · rw [if_neg h2] at h
      simp at h

/-- C8: Inline-math formatting.  For text that is empty or all whitespace
the input is returned unchanged (in particular the overall whitespace is
preserved and no delimiters are emitted); otherwise the output is exactly:
the overall leading whitespace, then the trimmed-and-rewrapped payload
(`$…$`, or `$ $` when the payload strips to nothing) of the outer-dollar
unwrap of the trimmed text, then the trailing non-math text split off inside
the candidate, then the overall trailing whitespace. -/
theorem c8_inline_math (text : PyStr) :
    (pyStrip text = [] → getInlineMath text = text) ∧
    (pyStrip text ≠ [] →
      getInlineMath text
        = leadingWS text
            ++ mathWrapSpec (pyStrip (dollarUnwrapSpec (pyStrip text)))
            ++ trailingWS (dollarUnwrapSpec (pyStrip text))
            ++ trailingWS text) := by
  constructor
  · intro hs
    by_cases ht : text = []
    · subst ht
      rfl
    · have hne' : text.isEmpty = false := by
        cases text with
        | nil => exact absurd rfl ht
        | cons a l => rfl
      have hl : pyLStrip text = [] := lstrip_eq_nil_of_strip_eq_nil text hs
      have hl' : (pyLStrip text).isEmpty = true := by rw [hl]; rfl
      rw [getInlineMath, hne']
      simp only [Bool.false_eq_true, if_false, hl', if_true]
  · intro hs
    have hlne : pyLStrip text ≠ [] := fun h => hs (by rw [pyStrip, h]; rfl)
    have htne : text ≠ [] := fun h => hlne (by rw [h]; rfl)
    have hne' : text.isEmpty = false := by
      cases text with
      | nil => exact absurd rfl htne
      | cons a l => rfl
    have hlne' : (pyLStrip text).isEmpty = false := by
      cases hpl : pyLStrip text with
      | nil => exact absurd hpl hlne
      | cons a l => rfl
    simp only [getInlineMath, hne', hlne', Bool.false_eq_true, if_false]
    show List.take (text.length - (pyLStrip text).length) text
        ++ (if (pyStrip (pyRStrip (dollarUnwrapSpec (pyStrip text)))).isEmpty then pstr "$ $"
            else '$' :: (pyStrip (pyRStrip (dollarUnwrapSpec (pyStrip text))) ++ ['$']))
        ++ (dollarUnwrapSpec (pyStrip text)).drop
              (pyRStrip (dollarUnwrapSpec (pyStrip text))).length
        ++ (pyLStrip text).drop (pyRStrip (pyLStrip text)).length
      = leadingWS text ++ mathWrapSpec (pyStrip (dollarUnwrapSpec (pyStrip text)))
          ++ trailingWS (dollarUnwrapSpec (pyStrip text)) ++ trailingWS text
    rw [pyStrip_rstrip (dollarUnwrapSpec (pyStrip text))]
    rw [drop_rstrip_eq_trailingWS (dollarUnwrapSpec (pyStrip text))]
    rw [drop_rstrip_eq_trailingWS (pyLStrip text)]
    rw [trailingWS_lstrip text hs]
    rw [show List.take (text.length - (pyLStrip text).length) text = leadingWS text from
      take_sub_eq_takeWhile pyIsSpace text]
    rfl

/-- C8 witness: `"  $x_s $  "` renders as `"  $x_s$   "` (whitespace
preserved outside, outer `$` pair removed, trailing space inside the
candidate preserved after the closing `$`), and `"$  $"` — an
all-whitespace payload — renders as `"$ $  "`. -/
theorem c8_inline_math_witness :
    getInlineMath (pstr "  $x_s $  ")
      = leadingWS (pstr "  $x_s $  ")
          ++ mathWrapSpec (pyStrip (dollarUnwrapSpec (pyStrip (pstr "  $x_s $  "))))
          ++ trailingWS (dollarUnwrapSpec (pyStrip (pstr "  $x_s $  ")))
          ++ trailingWS (pstr "  $x_s $  ") ∧
    getInlineMath (pstr "  $x_s $  ") = pstr "  $x_s$   " ∧
    getInlineMath (pstr "$  $") = pstr "$ $  " :=
  ⟨(c8_inline_math (pstr "  $x_s $  ")).2 (by decide), by decide, by decide⟩

/-- C5: Column-split decision and division for a Marp slide: the body (the
elements left after separating the leading title and the floated images) is
split into two columns iff the slide's density class (computed over ALL
initial elements) is smaller or smallest, the body's average line length is
below `marp_columns_line_length_threshold` (equivalently
`chars < threshold * lines` with `lines > 0`), at least two body elements
remain, and none of them is a table. -/
theorem c5_column_split_decision (cfg : Config) (initial : List SlideElement) :
    (marpPlanSlide cfg initial).split = true ↔
      ((getSlideDensityClass (slideContentMetrics initial).line_count = some (pstr "smaller") ∨
        getSlideDensityClass (slideContentMetrics initial).line_count = some (pstr "smallest")) ∧
       0 < (slideContentMetrics (marpPlanSlide cfg initial).others).text_lines_for_avg ∧
       ((slideContentMetrics (marpPlanSlide cfg initial).others).text_chars_for_avg : ℚ)
          < (cfg.marp_columns_line_length_threshold : ℚ)
            * ((slideContentMetrics (marpPlanSlide cfg initial).others).text_lines_for_avg : ℚ) ∧
       2 ≤ (marpPlanSlide cfg initial).others.length ∧
       ∀ e ∈ (marpPlanSlide cfg initial).others, isTableElement e = false) := by
  simp only [marpPlanSlide]
  set O := (separateSlideElements cfg initial
    ((effectiveSlideWidth cfg : ℚ)) ((MARP_TARGET_WIDTH_PX : ℚ))).2.2 with hO
  set L := (slideContentMetrics O).text_lines_for_avg with hL0
  set Ch := (slideContentMetrics O).text_chars_for_avg with hCh0
  set thr := cfg.marp_columns_line_length_threshold with hthr0
  set cls := getSlideDensityClass (slideContentMetrics initial).line_count with hcls0
  by_cases hC : (cls = some (pstr "smaller") ∨ cls = some (pstr "smallest"))
  · rw [if_pos hC]
    by_cases hL : 0 < L
    · rw [if_pos hL]
      by_cases hq : ((Ch : ℚ) / (L : ℚ) < (thr : ℚ))
      · have hq2 : (Ch : ℚ) < (thr : ℚ) * (L : ℚ) := by
          rwa [div_lt_iff₀ (by exact_mod_cast hL)] at hq
        simp [hq, hq2, hC, hL, List.any_eq_true]
      · have hq2 : ¬ ((Ch : ℚ) < (thr : ℚ) * (L : ℚ)) := by
          rwa [← div_lt_iff₀ (by exact_mod_cast hL)]
        simp [hq, hq2]
    · rw [if_neg hL]
      simp [hL]
  · rw [if_neg hC]
    simp [hC]

theorem c5_split_division (cfg : Config) (initial : List SlideElement)
    (h : (marpPlanSlide cfg initial).split = true) :
    (marpPlanSlide cfg initial).columns
        = some ((marpPlanSlide cfg initial).others.take
                  (((marpPlanSlide cfg initial).others.length + 1) / 2),
                (marpPlanSlide cfg initial).others.drop
                  (((marpPlanSlide cfg initial).others.length + 1) / 2)) ∧
    (marpPlanSlide cfg initial).effectiveClass = some (pstr "small") := by
  revert h
  simp only [marpPlanSlide]
  intro h
  constructor
  · rw [if_pos h]
  · -- split implies the class condition held, so the downgrade fires
    rw [if_pos h]
    by_cases hC : (getSlideDensityClass (slideContentMetrics initial).line_count
        = some (pstr "smaller") ∨
      getSlideDensityClass (slideContentMetrics initial).line_count
        = some (pstr "smallest"))
    · rw [if_pos hC]
    · exfalso
      rw [if_neg hC] at h
      simp at h

/-- C5: Column-split decision and division (see
`c5_column_split_decision` and `c5_split_division`): the split happens iff
density is smaller/smallest, the body's average line length is below the
threshold, at least two body elements remain and none is a table; on a
split the first column takes `ceil(n/2)` elements, the second the rest, and
the density class is downgraded to "small". -/
theorem c5_column_split :
    (∀ (cfg : Config) (initial : List SlideElement),
      (marpPlanSlide cfg initial).split = true ↔
        ((getSlideDensityClass (slideContentMetrics initial).line_count
            = some (pstr "smaller") ∨
          getSlideDensityClass (slideContentMetrics initial).line_count
            = some (pstr "smallest")) ∧
         0 < (slideContentMetrics (marpPlanSlide cfg initial).others).text_lines_for_avg ∧
         ((slideContentMetrics (marpPlanSlide cfg initial).others).text_chars_for_avg : ℚ)
            < (cfg.marp_columns_line_length_threshold : ℚ)
              * ((slideContentMetrics (marpPlanSlide cfg initial).others).text_lines_for_avg : ℚ) ∧
         2 ≤ (marpPlanSlide cfg initial).others.length ∧
         ∀ e ∈ (marpPlanSlide cfg initial).others, isTableElement e = false)) ∧
    (∀ (cfg : Config) (initial : List SlideElement),
      (marpPlanSlide cfg initial).split = true →
        (marpPlanSlide cfg initial).columns
            = some ((marpPlanSlide cfg initial).others.take
                      (((marpPlanSlide cfg initial).others.length + 1) / 2),
                    (marpPlanSlide cfg initial).others.drop
                      (((marpPlanSlide cfg initial).others.length + 1) / 2)) ∧
        (marpPlanSlide cfg initial).effectiveClass = some (pstr "small")) :=
  ⟨c5_column_split_decision, c5_split_division⟩

/-- C5 witness: a slide with a title, a 15-line code block and two short
paragraphs (line count 18 → "smaller"; body average line length 2 < 40;
3 body elements, no table) splits 2/1 and is downgraded to "small". -/
theorem c5_column_split_witness :
    (marpPlanSlide cfgDefault c5WitnessSlide).split = true ∧
    (marpPlanSlide cfgDefault c5WitnessSlide).columns
      = some ([tallCodeBlock, shortPara], [shortPara]) ∧
    (marpPlanSlide cfgDefault c5WitnessSlide).effectiveClass = some (pstr "small") :=
  ⟨by with_unfolding_all decide,
   by
     rw [(c5_column_split.2 cfgDefault c5WitnessSlide (by with_unfolding_all decide)).1]
     with_unfolding_all decide,
   (c5_column_split.2 cfgDefault c5WitnessSlide (by with_unfolding_all decide)).2⟩

/-- C6 (amended): in the BASE resolver a valid explicit per-image hint
overrides the computed one, and with no explicit hint the result is the
strict-thirds classification of the scaled center
`round(left * target/original) + scaled_width / 2`; but in
`MarpFormatter.put_image` the priority is REVERSED: whenever a hint could be
computed from the geometry it wins, and the element's own hint is only a
fallback. -/
theorem c6_image_position_hint_amended :
    (∀ (cfg : Config) (el : ImageData) (origW targetW : ℚ) (h : PyStr),
      el.position_hint = some h →
      (h = pstr "left" ∨ h = pstr "right" ∨ h = pstr "center") →
      getImageEffectivePositionHint cfg el origW targetW = some h) ∧
    (∀ (cfg : Config) (el : ImageData) (origW targetW : ℚ) (l sw : Int),
      el.position_hint = none →
      el.left_px = some l →
      scaledImageWidthForHinting cfg el origW targetW = some sw →
      0 < origW → 0 < sw →
      getImageEffectivePositionHint cfg el origW targetW
        = thirdsHint ((pyRound ((l : ℚ) * (targetW / origW)) : ℚ) + (sw : ℚ) / 2)
            targetW) ∧
    (∀ (cfg : Config) (el : ImageData) (c : PyStr),
      marpComputedPositionHint cfg el = some c →
      marpPutImageEffectiveHint cfg el = some c) := by
  refine ⟨?_, ?_, ?_⟩
  · intro cfg el origW targetW h hph hvalid
    rw [getImageEffectivePositionHint, hph]
    simp only [if_pos hvalid]
  · intro cfg el origW targetW l sw hph hleft hscaled hw hsw
    rw [getImageEffectivePositionHint, hph, hleft, hscaled]
    simp only [if_pos (And.intro hw hsw), if_pos hw]
  · intro cfg el c hc
    rw [marpPutImageEffectiveHint, hc]

/-- C6 witness: the claim's example — original slide width 1600, target
1280, `left_px = 50`, `display_width_px = 200` and no explicit hint:
scaled left 40, scaled width 160, center 120 < 1280/3, so the base resolver
hints "left". -/
theorem c6_image_position_hint_witness :
    getImageEffectivePositionHint cfgDefault
        { left_px := some 50, display_width_px := some 200 } 1600 1280
      = thirdsHint ((pyRound ((50 : ℚ) * ((1280 : ℚ) / (1600 : ℚ))) : ℚ)
          + ((160 : Int) : ℚ) / 2) 1280 ∧
    getImageEffectivePositionHint cfgDefault
        { left_px := some 50, display_width_px := some 200 } 1600 1280
      = some (pstr "left") :=
  ⟨c6_image_position_hint_amended.2.1 cfgDefault
      { left_px := some 50, display_width_px := some 200 } 1600 1280 50 160
      rfl rfl (by with_unfolding_all decide)
      (by with_unfolding_all decide) (by with_unfolding_all decide),
   by with_unfolding_all decide⟩

/-- C6 counterexample: an image with explicit `position_hint = "right"`
whose geometry computes "left" (center 120 of 1280): `MarpFormatter.put_image`
uses the COMPUTED hint "left" — the explicit hint does not override — while
the base resolver obeys the explicit "right". -/
theorem c6_counterexample :
    c6Image.position_hint = some (pstr "right") ∧
    marpPutImageEffectiveHint c6Config c6Image = some (pstr "left") ∧
    getImageEffectivePositionHint c6Config c6Image
        ((effectiveSlideWidth c6Config : ℚ)) ((MARP_TARGET_WIDTH_PX : ℚ))
      = some (pstr "right") :=
  ⟨rfl, by with_unfolding_all decide, by with_unfolding_all decide⟩
